import Mathlib

/-!
Verification of the Argyle ISD AI Guide retrieval pipeline (`app.py`, `run.py`).

The Python source is shallowly embedded below.  Text is modelled as `List Char`
(the ASCII plane; Python's `\w` and `\s` additionally match some non-ASCII
Unicode characters, which never occur in any claim considered here, and every
counterexample below is pure ASCII, where the embedding agrees with CPython's
`re` exactly).  HTML documents are modelled as an already-parsed node tree,
since `BeautifulSoup(response.content, 'html.parser')` is total on byte
strings; the network is modelled as a function from the issued HTTP request to
an abstract outcome.
-/

namespace Argyle

/-- Python regex `\s` restricted to the ASCII plane: the characters for which
CPython's `str.isspace()` / `re` `\s` hold below code point 128. -/
def isSpaceChar (c : Char) : Bool :=
  c == ' ' || c == '\t' || c == '\n' || c == '\r' || c == '\x0b' || c == '\x0c' ||
  c == '\x1c' || c == '\x1d' || c == '\x1e' || c == '\x1f'

/-- Python regex `\w` restricted to the ASCII plane: letters, digits and the
underscore. -/
def isWordChar (c : Char) : Bool :=
  c.isAlpha || c.isDigit || c == '_'

/-- The punctuation kept by `clean_text`'s second regex
`re.sub(r'[^\w\s.,!?;:()\-]', '', text)` (app.py line 30). -/
def isAllowedPunct (c : Char) : Bool :=
  c == '.' || c == ',' || c == '!' || c == '?' || c == ';' || c == ':' ||
  c == '(' || c == ')' || c == '-'

/-- A character that survives the deletion regex of `clean_text`
(app.py line 30): it matches `\w`, `\s`, or one of the allowed punctuation
marks. -/
def allowedChar (c : Char) : Bool :=
  isWordChar c || isSpaceChar c || isAllowedPunct c

/-- The character set named by the specification's testable property:
`[A-Za-z0-9\s.,!?;:()\-]` — letters, digits, whitespace and the allowed
punctuation, with no underscore. -/
def specAllowedChar (c : Char) : Bool :=
  c.isAlpha || c.isDigit || isSpaceChar c || isAllowedPunct c

/-- `re.sub(r'\s+', ' ', text)` (app.py line 28): every maximal nonempty run
of whitespace characters is replaced by a single space.  Each run is emitted
as `' '` at its last character. -/
def collapseWS : List Char → List Char
  | [] => []
  | [c] => if isSpaceChar c then [' '] else [c]
  | c₁ :: c₂ :: rest =>
    if isSpaceChar c₁ then
      if isSpaceChar c₂ then collapseWS (c₂ :: rest)
      else ' ' :: collapseWS (c₂ :: rest)
    else c₁ :: collapseWS (c₂ :: rest)

/-- Python `str.strip()`: remove whitespace from both ends. -/
def pyStrip (l : List Char) : List Char :=
  (((l.dropWhile isSpaceChar).reverse.dropWhile isSpaceChar)).reverse

/-- `clean_text` (app.py lines 25-31): collapse whitespace runs to single
spaces, delete every character outside `[\w\s.,!?;:()\-]`, then strip. -/
def clean_text (l : List Char) : List Char :=
  pyStrip (List.filter allowedChar (collapseWS l))

/-- No two adjacent characters of the list are both whitespace. -/
def NoAdjSpaces (l : List Char) : Prop :=
  List.Chain' (fun a b => isSpaceChar a = false ∨ isSpaceChar b = false) l

/-- The normal forms of `clean_text`: every character is kept by the deletion
regex, all whitespace is a single space, no two spaces are adjacent, and the
ends are not whitespace. -/
def Normalized (l : List Char) : Prop :=
  (∀ c ∈ l, allowedChar c = true) ∧
  (∀ c ∈ l, isSpaceChar c = true → c = ' ') ∧
  NoAdjSpaces l ∧
  (∀ c, l.head? = some c → isSpaceChar c = false) ∧
  (∀ c, l.getLast? = some c → isSpaceChar c = false)

/-! ## HTML model and `scrape_url` -/

/-- A parsed HTML node, as produced by BeautifulSoup's `html.parser`:
either a text node or an element with a tag and children.  A document is a
`List Html` (the top-level children of the soup object). -/
inductive Html where
  | text : List Char → Html
  | elem : String → List Html → Html

/-- `soup.get_text()`: concatenation of all text nodes in document order. -/
def getTextList : List Html → List Char
  | [] => []
  | Html.text s :: t => s ++ getTextList t
  | Html.elem _ cs :: t => getTextList cs ++ getTextList t

/-- `for script in soup(["script", "style"]): script.decompose()`
(app.py lines 47-48): remove every `script` and `style` subtree. -/
def decomposeList : List Html → List Html
  | [] => []
  | Html.text s :: t => Html.text s :: decomposeList t
  | Html.elem tag cs :: t =>
    if tag = "script" ∨ tag = "style" then decomposeList t
    else Html.elem tag (decomposeList cs) :: decomposeList t

/-- `soup.find('title')` (app.py line 51): the first element with tag
`title`, in document (pre-)order. -/
def findTitleList : List Html → Option Html
  | [] => none
  | Html.text _ :: t => findTitleList t
  | Html.elem tag cs :: t =>
    if tag = "title" then some (Html.elem tag cs)
    else
      match findTitleList cs with
      | some r => some r
      | none => findTitleList t

/-- `element.get_text()` on a single node. -/
def elemText (h : Html) : List Char :=
  getTextList [h]

/-- The record returned by a successful `scrape_url`
(app.py lines 58-62): url, title text and truncated cleaned content. -/
structure PageRecord where
  url : String
  title : List Char
  content : List Char
deriving DecidableEq

/-- The HTTP request issued by `requests.get(url, headers=headers, timeout=10)`
(app.py line 41). -/
structure HttpRequest where
  url : String
  headers : List (String × String)
  timeout : Nat
deriving DecidableEq

/-- The headers dictionary of `scrape_url` (app.py lines 37-40). -/
def request_headers : List (String × String) :=
  [("User-Agent", "Mozilla/5.0 (Windows NT 10.0; Win64; x64) AppleWebKit/537.36")]

/-- The timeout passed to `requests.get` (app.py line 41). -/
def request_timeout : Nat := 10

/-- Outcome of one HTTP fetch, after parsing.  `netError` stands for any
exception raised by `requests.get` itself (connection error, timeout, ...);
`response status doc` is a completed response with its status code and its
body parsed by `html.parser` (which is total). -/
inductive FetchOutcome where
  | netError : FetchOutcome
  | response : Nat → List Html → FetchOutcome

/-- The body of `scrape_url` after `raise_for_status` has passed
(app.py lines 44-62): decompose script/style, take the first title element's
text or `"No Title"`, clean the full text and truncate to 5000 characters. -/
def extractRecord (url : String) (doc : List Html) : PageRecord :=
  let cleaned := decomposeList doc
  let title :=
    match findTitleList cleaned with
    | some el => elemText el
    | none => "No Title".toList
  ⟨url, title, (clean_text (getTextList cleaned)).take 5000⟩

/-- `scrape_url` (app.py lines 34-65): issue a GET with the fixed headers and
timeout; `response.raise_for_status()` raises `HTTPError` exactly when
`400 ≤ status < 600`; the surrounding `try/except Exception` maps every
failure to `None` (a warning is displayed, which we do not track). -/
def scrape_url (url : String) (http : HttpRequest → FetchOutcome) :
    Option PageRecord :=
  match http ⟨url, request_headers, request_timeout⟩ with
  | FetchOutcome.netError => none
  | FetchOutcome.response status doc =>
    if 400 ≤ status ∧ status < 600 then none
    else some (extractRecord url doc)

/-! ## Corpus Builder (`load_argyle_data`) -/

/-- A LangChain `Document` as constructed in app.py lines 101-107:
`page_content` plus the `source` and `title` metadata entries. -/
structure Document where
  page_content : List Char
  source : String
  title : List Char
deriving DecidableEq

/-- Promotion of a scraped page into a `Document` (app.py lines 101-107). -/
def mkDocument (r : PageRecord) : Document :=
  ⟨r.content, r.url, r.title⟩

/-- The documents contributed by one URL inside the loop of
`load_argyle_data` (app.py lines 98-108): `if data and data["content"]:`
appends one `Document`; a `None` result or empty content contributes
nothing. -/
def scrapeDocs (url : String) (http : HttpRequest → FetchOutcome) :
    List Document :=
  match scrape_url url http with
  | some d => if d.content = [] then [] else [mkDocument d]
  | none => []

/-- What `load_argyle_data` accumulates: the returned document list and the
sequence of values passed to `progress_bar.progress` (app.py line 110),
modelled as exact rationals. -/
structure LoadResult where
  docs : List Document
  progress : List ℚ

/-- The `for i, url in enumerate(urls)` loop of `load_argyle_data`
(app.py lines 95-111): scrape each URL in order, keep the documents of
successful nonempty pages, and after each URL emit `(i + 1) / len(urls)`.
`n` is `len(urls)` and `i` the enumeration index. -/
def loadLoop (http : HttpRequest → FetchOutcome) (n : Nat) :
    List String → Nat → LoadResult
  | [], _ => ⟨[], []⟩
  | u :: rest, i =>
    let tail := loadLoop http n rest (i + 1)
    ⟨scrapeDocs u http ++ tail.docs, (((i : ℚ) + 1) / (n : ℚ)) :: tail.progress⟩

/-- `load_argyle_data` (app.py lines 86-114), parameterized by the URL list
it iterates (`get_argyle_urls()` at the call site) and the network. -/
def load_argyle_data (urls : List String) (http : HttpRequest → FetchOutcome) :
    LoadResult :=
  loadLoop http urls.length urls 0

/-- `get_argyle_urls` (app.py lines 67-84). -/
def get_argyle_urls : List String :=
  [ "https://www.argyleisd.com/",
    "https://www.argyleisd.com/about",
    "https://www.argyleisd.com/board-of-trustees",
    "https://www.argyleisd.com/schools",
    "https://www.argyleisd.com/departments",
    "https://www.argyleisd.com/calendars",
    "https://www.argyleisd.com/employment",
    "https://www.argyleisd.com/departments/transportation",
    "https://www.argyleisd.com/departments/human-resources",
    "https://www.argyleisd.com/all-news",
    "https://www.argyleisd.com/about/faqs",
    "https://www.argyleisd.com/future/bonds",
    "https://www.argyleisd.com/staff",
    "https://www.argyleisd.com/directory" ]

/-! ## Embedding/Index Builder (`get_vectorstore`) and `main` -/

/-- The vector store built by `Chroma.from_documents` (app.py lines 132-137):
its documents, collection name and persist directory.  Constructing this
value is the only way an index is written to the persist directory. -/
structure Chroma where
  documents : List Document
  collection_name : String
  persist_directory : String
deriving DecidableEq

/-- `get_vectorstore` (app.py lines 116-140): build the corpus; with no
documents, display an error and return `None` before any index is created
(the `EmptyCorpusError` signal of the specification); otherwise build the
Chroma index. -/
def get_vectorstore (http : HttpRequest → FetchOutcome) : Option Chroma :=
  let docs := (load_argyle_data get_argyle_urls http).docs
  if docs.isEmpty then none
  else some ⟨docs, "argyleisd_real", "./chroma_db_real"⟩

/-- Outcome of the initialization block of `main` (app.py lines 197-215). -/
inductive InitResult where
  | fatalNoKnowledgeBase : InitResult
  | ready : Chroma → InitResult
deriving DecidableEq

/-- The initialization of `main` (app.py lines 198-202): a `None` vector
store is reported with `st.error` and `main` returns — the fatal but
recoverable path — otherwise the pipeline is ready. -/
def main_init (http : HttpRequest → FetchOutcome) : InitResult :=
  match get_vectorstore http with
  | none => InitResult.fatalNoKnowledgeBase
  | some vs => InitResult.ready vs

/-! ## Startup (app.py lines 19-20) and the launcher (`run.py`) -/

/-- `os.getenv`: look a key up in the environment. -/
def envLookup (env : List (String × String)) (k : String) : Option String :=
  match env with
  | [] => none
  | (k₀, v) :: rest => if k₀ = k then some v else envLookup rest k

/-- Outcome of importing `app.py` (lines 19-20). -/
inductive StartupResult where
  | typeErrorCrash : StartupResult
  | started : String → StartupResult
deriving DecidableEq

/-- app.py lines 19-20: `OPENAI_API_KEY = os.getenv("OPENAI_API_KEY")` then
`os.environ["OPENAI_API_KEY"] = OPENAI_API_KEY`.  When the variable is
absent, `os.getenv` returns `None` and the `os.environ` assignment raises an
uncaught `TypeError` at module import — before `main` and its sidebar ever
run. -/
def app_startup (env : List (String × String)) : StartupResult :=
  match envLookup env "OPENAI_API_KEY" with
  | none => StartupResult.typeErrorCrash
  | some k => StartupResult.started k

/-- Outcome of `run.py`. -/
inductive LauncherResult where
  | exitOne : List String → LauncherResult
  | launched : LauncherResult
deriving DecidableEq

/-- `run.py` lines 20-28: collect the missing required variables; if any,
print them with an actionable message and `sys.exit(1)`; otherwise start the
Streamlit app. -/
def run_launcher (env : List (String × String)) : LauncherResult :=
  let missing :=
    (["FIRECRAWL_API_KEY", "OPENAI_API_KEY"]).filter
      (fun v => (envLookup env v).isNone)
  if missing.isEmpty then LauncherResult.launched
  else LauncherResult.exitOne missing


/-- Unfolding of `collapseWS` on a non-whitespace head. -/
theorem collapseWS_cons_of_not_space {c : Char} (l : List Char)
    (h : isSpaceChar c = false) : collapseWS (c :: l) = c :: collapseWS l := by
  cases l with
  | nil => simp [collapseWS, h]
  | cons c₂ rest => simp [collapseWS, h]

/-- Every character of `collapseWS l` is either the space emitted for a run
or a non-whitespace character of `l`. -/
theorem mem_collapseWS {c : Char} {l : List Char} (h : c ∈ collapseWS l) :
    c = ' ' ∨ (c ∈ l ∧ isSpaceChar c = false) := by
  induction l using collapseWS.induct with
  | case1 => simp [collapseWS] at h
  | case2 c₀ h₀ =>
    simp [collapseWS, h₀] at h
    exact Or.inl h
  | case3 c₀ h₀ =>
    simp [collapseWS, h₀] at h
    subst h
    exact Or.inr ⟨List.mem_singleton_self _, by simpa using h₀⟩
  | case4 c₁ c₂ rest h₁ h₂ ih =>
    simp only [collapseWS, h₁, h₂, if_true] at h
    rcases ih h with h' | ⟨hm, hs⟩
    · exact Or.inl h'
    · exact Or.inr ⟨List.mem_cons_of_mem _ hm, hs⟩
  | case5 c₁ c₂ rest h₁ h₂ ih =>
    simp only [collapseWS, h₁, h₂, if_true, if_false] at h
    rcases List.mem_cons.mp h with h' | h'
    · exact Or.inl h'
    · rcases ih h' with h'' | ⟨hm, hs⟩
      · exact Or.inl h''
      · exact Or.inr ⟨List.mem_cons_of_mem _ hm, hs⟩
  | case6 c₁ c₂ rest h₁ ih =>
    simp only [collapseWS, h₁, if_false] at h
    rcases List.mem_cons.mp h with h' | h'
    · subst h'
      exact Or.inr ⟨List.mem_cons_self _ _, by simpa using h₁⟩
    · rcases ih h' with h'' | ⟨hm, hs⟩
      · exact Or.inl h''
      · exact Or.inr ⟨List.mem_cons_of_mem _ hm, hs⟩


theorem collapseWS_cons_cons (c₁ c₂ : Char) (rest : List Char) :
    collapseWS (c₁ :: c₂ :: rest) =
      if isSpaceChar c₁ = true then
        (if isSpaceChar c₂ = true then collapseWS (c₂ :: rest)
         else ' ' :: collapseWS (c₂ :: rest))
      else c₁ :: collapseWS (c₂ :: rest) := rfl


/-- `collapseWS` leaves no two adjacent whitespace characters. -/
theorem noAdjSpaces_collapseWS (l : List Char) : NoAdjSpaces (collapseWS l) := by
  induction l using collapseWS.induct with
  | case1 => simp [NoAdjSpaces, collapseWS]
  | case2 c₀ h₀ => simp [NoAdjSpaces, collapseWS, h₀]
  | case3 c₀ h₀ => simp [NoAdjSpaces, collapseWS, h₀]
  | case4 c₁ c₂ rest h₁ h₂ ih =>
    rw [NoAdjSpaces, collapseWS_cons_cons, if_pos h₁, if_pos h₂]
    exact ih
  | case5 c₁ c₂ rest h₁ h₂ ih =>
    have h₂' : isSpaceChar c₂ = false := by simpa using h₂
    rw [NoAdjSpaces, collapseWS_cons_cons, if_pos h₁, if_neg h₂,
      List.chain'_cons']
    refine ⟨?_, ih⟩
    intro y hy
    rw [collapseWS_cons_of_not_space rest h₂', List.head?_cons,
      Option.mem_some_iff] at hy
    subst hy
    exact Or.inr h₂'
  | case6 c₁ c₂ rest h₁ ih =>
    have h₁' : isSpaceChar c₁ = false := by simpa using h₁
    rw [NoAdjSpaces, collapseWS_cons_cons, if_neg h₁, List.chain'_cons']
    exact ⟨fun y _ => Or.inl h₁', ih⟩

/-- Whitespace characters surviving `collapseWS` are exactly `' '`. -/
theorem collapseWS_space_eq {c : Char} {l : List Char} (h : c ∈ collapseWS l)
    (hs : isSpaceChar c = true) : c = ' ' := by
  rcases mem_collapseWS h with h' | ⟨_, h'⟩
  · exact h'
  · rw [hs] at h'; cases h'

/-- On a list with no adjacent whitespace whose whitespace is all `' '`,
`collapseWS` is the identity. -/
theorem collapseWS_eq_self {l : List Char} (hadj : NoAdjSpaces l)
    (hsp : ∀ c ∈ l, isSpaceChar c = true → c = ' ') : collapseWS l = l := by
  induction l using collapseWS.induct with
  | case1 => simp [collapseWS]
  | case2 c₀ h₀ =>
    have : c₀ = ' ' := hsp c₀ (List.mem_singleton_self _) h₀
    simp [collapseWS, h₀, this]
  | case3 c₀ h₀ => simp [collapseWS, h₀]
  | case4 c₁ c₂ rest h₁ h₂ ih =>
    exfalso
    rcases (List.chain'_cons.mp hadj).1 with h' | h'
    · rw [h₁] at h'; cases h'
    · rw [h₂] at h'; cases h'
  | case5 c₁ c₂ rest h₁ h₂ ih =>
    have hc₁ : c₁ = ' ' := hsp c₁ (List.mem_cons_self _ _) h₁
    have htail : collapseWS (c₂ :: rest) = c₂ :: rest :=
      ih (List.chain'_cons.mp hadj).2
        (fun c hc h => hsp c (List.mem_cons_of_mem _ hc) h)
    rw [collapseWS_cons_cons, if_pos h₁, if_neg h₂, htail, hc₁]
  | case6 c₁ c₂ rest h₁ ih =>
    have htail : collapseWS (c₂ :: rest) = c₂ :: rest :=
      ih (List.chain'_cons.mp hadj).2
        (fun c hc h => hsp c (List.mem_cons_of_mem _ hc) h)
    rw [collapseWS_cons_cons, if_neg h₁, htail]


/-- Characters of `pyStrip l` come from `l`. -/
theorem mem_pyStrip {c : Char} {l : List Char} (h : c ∈ pyStrip l) : c ∈ l := by
  unfold pyStrip at h
  rw [List.mem_reverse] at h
  have h₂ := (List.dropWhile_sublist isSpaceChar).subset h
  rw [List.mem_reverse] at h₂
  exact (List.dropWhile_sublist isSpaceChar).subset h₂

/-- `dropWhile` preserves `Chain'`. -/
theorem chain'_dropWhile {R : Char → Char → Prop} {l : List Char}
    (p : Char → Bool) (h : List.Chain' R l) :
    List.Chain' R (l.dropWhile p) := by
  induction l with
  | nil => simp
  | cons c t ih =>
    rw [List.dropWhile_cons]
    split
    · exact ih h.tail
    · exact h

/-- `pyStrip` preserves `Chain'`. -/
theorem chain'_pyStrip {R : Char → Char → Prop} {l : List Char}
    (h : List.Chain' R l) : List.Chain' R (pyStrip l) := by
  unfold pyStrip
  rw [List.chain'_reverse]
  apply chain'_dropWhile
  rw [List.chain'_reverse]
  exact chain'_dropWhile _ h

/-- The head of a `dropWhile p` result never satisfies `p`. -/
theorem head?_dropWhile_false (p : Char → Bool) (l : List Char) {c : Char}
    (h : (l.dropWhile p).head? = some c) : p c = false := by
  have h₂ := List.head?_dropWhile_not p l
  rw [h] at h₂
  exact h₂

/-- The first character of a stripped string is not whitespace. -/
theorem head?_pyStrip_not_space {l : List Char} {c : Char}
    (h : (pyStrip l).head? = some c) : isSpaceChar c = false := by
  unfold pyStrip at h
  rw [List.head?_reverse] at h
  have hz : ((l.dropWhile isSpaceChar).reverse.dropWhile isSpaceChar) ≠ [] := by
    intro hnil
    rw [hnil] at h
    cases h
  obtain ⟨t, ht⟩ :=
    List.dropWhile_suffix (l := (l.dropWhile isSpaceChar).reverse) isSpaceChar
  have hy : (l.dropWhile isSpaceChar).reverse.getLast? = some c := by
    rw [← ht, List.getLast?_append, h, Option.or_some]
  rw [List.getLast?_reverse] at hy
  exact head?_dropWhile_false _ _ hy

/-- The last character of a stripped string is not whitespace. -/
theorem getLast?_pyStrip_not_space {l : List Char} {c : Char}
    (h : (pyStrip l).getLast? = some c) : isSpaceChar c = false := by
  unfold pyStrip at h
  rw [List.getLast?_reverse] at h
  exact head?_dropWhile_false _ _ h

/-- `dropWhile p` is the identity when the head does not satisfy `p`. -/
theorem dropWhile_eq_self_of_head (p : Char → Bool) {l : List Char}
    (h : ∀ c, l.head? = some c → p c = false) : l.dropWhile p = l := by
  cases l with
  | nil => simp
  | cons c t =>
    have := h c rfl
    rw [List.dropWhile_cons_of_neg]
    rw [this]
    simp

/-- `pyStrip` is the identity on strings with non-whitespace ends. -/
theorem pyStrip_eq_self {l : List Char}
    (hh : ∀ c, l.head? = some c → isSpaceChar c = false)
    (hl : ∀ c, l.getLast? = some c → isSpaceChar c = false) :
    pyStrip l = l := by
  unfold pyStrip
  rw [dropWhile_eq_self_of_head _ hh]
  rw [dropWhile_eq_self_of_head _ ?_]
  · exact List.reverse_reverse l
  · intro c hc
    rw [List.head?_reverse] at hc
    exact hl c hc



/-- `clean_text` fixes every normalized string. -/
theorem clean_text_eq_self {l : List Char} (h : Normalized l) :
    clean_text l = l := by
  obtain ⟨hall, hsp, hadj, hh, hl⟩ := h
  unfold clean_text
  rw [collapseWS_eq_self hadj hsp, List.filter_eq_self.mpr hall,
    pyStrip_eq_self hh hl]

/-- Every character of a `clean_text` output is kept by the deletion regex. -/
theorem clean_text_allowed {l : List Char} {c : Char}
    (h : c ∈ clean_text l) : allowedChar c = true := by
  unfold clean_text at h
  exact List.of_mem_filter (mem_pyStrip h)

/-- On an input whose characters all survive the deletion regex,
`clean_text` produces a normalized string. -/
theorem normalized_clean_text {l : List Char}
    (hall : ∀ c ∈ l, allowedChar c = true) : Normalized (clean_text l) := by
  have hfilter : List.filter allowedChar (collapseWS l) = collapseWS l := by
    refine List.filter_eq_self.mpr ?_
    intro c hc
    rcases mem_collapseWS hc with h' | ⟨hm, _⟩
    · subst h'; rfl
    · exact hall c hm
  refine ⟨?_, ?_, ?_, ?_, ?_⟩
  · intro c hc
    exact clean_text_allowed hc
  · intro c hc hsc
    unfold clean_text at hc
    rw [hfilter] at hc
    exact collapseWS_space_eq (mem_pyStrip hc) hsc
  · unfold NoAdjSpaces clean_text
    rw [hfilter]
    exact chain'_pyStrip (noAdjSpaces_collapseWS l)
  · intro c hc
    exact head?_pyStrip_not_space hc
  · intro c hc
    exact getLast?_pyStrip_not_space hc


/-- The document list accumulated by the loop does not depend on the
enumeration index or the progress denominator. -/
theorem loadLoop_docs_indep (http : HttpRequest → FetchOutcome) :
    ∀ (l : List String) (n m i j : Nat),
      (loadLoop http n l i).docs = (loadLoop http m l j).docs := by
  intro l
  induction l with
  | nil => intro n m i j; rfl
  | cons u rest ih =>
    intro n m i j
    simp only [loadLoop]
    rw [ih n m (i + 1) (j + 1)]

/-- Unfolding of the document component on a cons cell. -/
theorem load_docs_cons (http : HttpRequest → FetchOutcome) (u : String)
    (urls : List String) :
    (load_argyle_data (u :: urls) http).docs
      = scrapeDocs u http ++ (load_argyle_data urls http).docs := by
  simp only [load_argyle_data, loadLoop]
  rw [loadLoop_docs_indep http urls (u :: urls).length urls.length 1 0]

/-- The progress list emitted by the loop, in closed form. -/
theorem loadLoop_progress (http : HttpRequest → FetchOutcome) (n : Nat) :
    ∀ (l : List String) (i : Nat),
      (loadLoop http n l i).progress
        = (List.range l.length).map
            (fun k : Nat => ((i : ℚ) + (k : ℚ) + 1) / (n : ℚ)) := by
  intro l
  induction l with
  | nil => intro i; simp [loadLoop]
  | cons u rest ih =>
    intro i
    simp only [loadLoop, List.length_cons]
    rw [List.range_succ_eq_map, List.map_cons, List.map_map, ih (i + 1)]
    refine congrArg₂ _ ?_ ?_
    · push_cast
      ring
    · refine List.map_congr_left ?_
      intro k _
      simp only [Function.comp_apply]
      push_cast
      ring


/-- Claim C1, as stated, is false: an HTML page whose text is a single
underscore is scraped to the content `"_"`, and `'_'` is outside the
specification's character set `[A-Za-z0-9\s.,!?;:()\-]` (the code's regex
keeps `\w`, which includes the underscore). -/
theorem C1_spec_charset_counterexample :
    scrape_url "https://www.argyleisd.com/"
        (fun _ => FetchOutcome.response 200 [Html.text ['_']])
      = some ⟨"https://www.argyleisd.com/", "No Title".toList, ['_']⟩
    ∧ specAllowedChar '_' = false := by
  constructor
  · simp [scrape_url, extractRecord, decomposeList, findTitleList,
      getTextList, elemText] ; decide
  · rfl

/-- Claim C1, amended: every character of the content produced by
`scrape_url` survives the deletion regex, i.e. is a word character
(letter, digit or underscore), whitespace, or one of `. , ! ? ; : ( ) -`. -/
theorem C1_content_charset (url : String) (http : HttpRequest → FetchOutcome)
    (r : PageRecord) (h : scrape_url url http = some r) :
    ∀ c ∈ r.content, allowedChar c = true := by
  intro c hc
  unfold scrape_url at h
  cases hhttp : http ⟨url, request_headers, request_timeout⟩ with
  | netError => rw [hhttp] at h; cases h
  | response status doc =>
    rw [hhttp] at h
    dsimp only at h
    by_cases hs : 400 ≤ status ∧ status < 600
    · rw [if_pos hs] at h; cases h
    · rw [if_neg hs] at h
      injection h with h
      subst h
      simp only [extractRecord] at hc
      exact clean_text_allowed (List.take_subset 5000 _ hc)

/-- Witness for the amended C1 at a concrete page. -/
theorem C1_content_charset_witness :
    scrape_url "u" (fun _ => FetchOutcome.response 200 [Html.text ['a']])
      = some ⟨"u", "No Title".toList, ['a']⟩
    ∧ ∀ c ∈ (⟨"u", "No Title".toList, ['a']⟩ : PageRecord).content,
        allowedChar c = true :=
  ⟨by simp [scrape_url, extractRecord, decomposeList, findTitleList,
      getTextList, elemText] ; decide,
   C1_content_charset "u" (fun _ => FetchOutcome.response 200 [Html.text ['a']])
     ⟨"u", "No Title".toList, ['a']⟩
     (by simp [scrape_url, extractRecord, decomposeList, findTitleList,
        getTextList, elemText] ; decide)⟩

/-- Claim C2, as stated, is false: `clean_text` is not idempotent.  On
`"a $ b"` the first pass deletes `'$'` between two spaces, leaving the
double space `"a  b"`, which a second pass collapses to `"a b"`. -/
theorem C2_idempotence_counterexample :
    clean_text "a $ b".toList = "a  b".toList
    ∧ clean_text (clean_text "a $ b".toList) = "a b".toList
    ∧ clean_text (clean_text "a $ b".toList) ≠ clean_text "a $ b".toList := by
  refine ⟨by decide, by decide, by decide⟩

/-- Claim C2, amended: normalization stabilizes after two applications —
`clean_text ∘ clean_text` is idempotent. -/
theorem C2_stabilizes_after_two (l : List Char) :
    clean_text (clean_text (clean_text l)) = clean_text (clean_text l) :=
  clean_text_eq_self
    (normalized_clean_text (fun _ hc => clean_text_allowed hc))

/-- Claim C3: the content of every record returned by `scrape_url` has at
most 5000 characters. -/
theorem C3_content_le_5000 (url : String) (http : HttpRequest → FetchOutcome)
    (r : PageRecord) (h : scrape_url url http = some r) :
    r.content.length ≤ 5000 := by
  unfold scrape_url at h
  cases hhttp : http ⟨url, request_headers, request_timeout⟩ with
  | netError => rw [hhttp] at h; cases h
  | response status doc =>
    rw [hhttp] at h
    dsimp only at h
    by_cases hs : 400 ≤ status ∧ status < 600
    · rw [if_pos hs] at h; cases h
    · rw [if_neg hs] at h
      injection h with h
      subst h
      simp only [extractRecord]
      exact List.length_take_le 5000 _

/-- Witness for C3 at a concrete page. -/
theorem C3_content_le_5000_witness :
    scrape_url "u" (fun _ => FetchOutcome.response 200 [Html.text ['a']])
      = some ⟨"u", "No Title".toList, ['a']⟩
    ∧ (⟨"u", "No Title".toList, ['a']⟩ : PageRecord).content.length ≤ 5000 :=
  ⟨by simp [scrape_url, extractRecord, decomposeList, findTitleList,
      getTextList, elemText] ; decide,
   C3_content_le_5000 "u" (fun _ => FetchOutcome.response 200 [Html.text ['a']])
     ⟨"u", "No Title".toList, ['a']⟩
     (by simp [scrape_url, extractRecord, decomposeList, findTitleList,
        getTextList, elemText] ; decide)⟩


/-- Claim C4: when the corpus comes out empty, `get_vectorstore` takes the
error path and returns `None` — no `Chroma` value (and hence no on-disk
index) is ever constructed — and `main` reports a fatal initialization
failure instead of crashing. -/
theorem C4_empty_corpus_no_index (http : HttpRequest → FetchOutcome)
    (h : (load_argyle_data get_argyle_urls http).docs = []) :
    get_vectorstore http = none
    ∧ main_init http = InitResult.fatalNoKnowledgeBase := by
  have hv : get_vectorstore http = none := by
    unfold get_vectorstore
    rw [h]
    rfl
  exact ⟨hv, by unfold main_init; rw [hv]⟩

/-- Witness for C4: with every fetch failing, the corpus is empty and the
empty-corpus error path is taken. -/
theorem C4_empty_corpus_no_index_witness :
    (load_argyle_data get_argyle_urls (fun _ => FetchOutcome.netError)).docs = []
    ∧ get_vectorstore (fun _ => FetchOutcome.netError) = none
    ∧ main_init (fun _ => FetchOutcome.netError)
        = InitResult.fatalNoKnowledgeBase :=
  ⟨by decide,
   (C4_empty_corpus_no_index (fun _ => FetchOutcome.netError) (by decide)).1,
   (C4_empty_corpus_no_index (fun _ => FetchOutcome.netError) (by decide)).2⟩

/-- Claim C5: a failed or empty scrape contributes nothing — the URL is
skipped and the remaining URLs still produce their documents — and when
every URL fails the result is the empty document list, not an exception
(`load_argyle_data` is a total function). -/
theorem C5_per_url_failure_isolated (http : HttpRequest → FetchOutcome) :
    (∀ (urls : List String) (u : String), scrape_url u http = none →
      (load_argyle_data (u :: urls) http).docs
        = (load_argyle_data urls http).docs)
    ∧ (∀ (urls : List String) (u : String) (r : PageRecord),
        scrape_url u http = some r → r.content = [] →
        (load_argyle_data (u :: urls) http).docs
          = (load_argyle_data urls http).docs)
    ∧ (∀ urls : List String, (∀ u ∈ urls, scrape_url u http = none) →
        (load_argyle_data urls http).docs = []) := by
  have hskip : ∀ (urls : List String) (u : String), scrapeDocs u http = [] →
      (load_argyle_data (u :: urls) http).docs
        = (load_argyle_data urls http).docs := by
    intro urls u hu
    rw [load_docs_cons, hu, List.nil_append]
  refine ⟨?_, ?_, ?_⟩
  · intro urls u hu
    refine hskip urls u ?_
    unfold scrapeDocs
    rw [hu]
  · intro urls u r hu hr
    refine hskip urls u ?_
    unfold scrapeDocs
    rw [hu]
    dsimp only
    rw [if_pos hr]
  · intro urls hall
    induction urls with
    | nil => rfl
    | cons u rest ih =>
      have hu : scrapeDocs u http = [] := by
        unfold scrapeDocs
        rw [hall u (List.mem_cons_self _ _)]
      rw [load_docs_cons, hu, List.nil_append]
      exact ih (fun v hv => hall v (List.mem_cons_of_mem _ hv))

/-- Witness for C5: one URL, failing fetch, empty corpus. -/
theorem C5_per_url_failure_isolated_witness :
    (∀ u ∈ ["https://www.argyleisd.com/"],
      scrape_url u (fun _ => FetchOutcome.netError) = none)
    ∧ (load_argyle_data ["https://www.argyleisd.com/"]
        (fun _ => FetchOutcome.netError)).docs = [] :=
  ⟨by decide,
   (C5_per_url_failure_isolated (fun _ => FetchOutcome.netError)).2.2
     ["https://www.argyleisd.com/"] (by decide)⟩

/-- Claim C6 names the intended behavior; the code crashes instead.  With
`OPENAI_API_KEY` absent, importing app.py raises an uncaught `TypeError` at
line 20 (`os.environ["OPENAI_API_KEY"] = None`), before the sidebar code of
`main` (lines 186-189) that would display "OpenAI: Not configured" can ever
run.  Only the separate launcher run.py exits cleanly with an actionable
message. -/
theorem C6_missing_key_crashes :
    app_startup [("FIRECRAWL_API_KEY", "fc-test-key")]
      = StartupResult.typeErrorCrash
    ∧ run_launcher [("FIRECRAWL_API_KEY", "fc-test-key")]
        = LauncherResult.exitOne ["OPENAI_API_KEY"] := by
  constructor
  · rfl
  · rfl


/-- Claim C7: after the `i`-th URL the loop reports the exact fraction
`(i + 1) / total`, and the reported sequence is strictly increasing. -/
theorem C7_progress_fraction_monotone (urls : List String)
    (http : HttpRequest → FetchOutcome) :
    (load_argyle_data urls http).progress
      = (List.range urls.length).map
          (fun i : Nat => ((i : ℚ) + 1) / (urls.length : ℚ))
    ∧ List.Pairwise (· < ·) ((load_argyle_data urls http).progress) := by
  have hp : (load_argyle_data urls http).progress
      = (List.range urls.length).map
          (fun i : Nat => ((i : ℚ) + 1) / (urls.length : ℚ)) := by
    unfold load_argyle_data
    rw [loadLoop_progress http urls.length urls 0]
    refine List.map_congr_left ?_
    intro k _
    push_cast
    ring
  refine ⟨hp, ?_⟩
  rw [hp]
  cases urls with
  | nil => simp
  | cons u rest =>
    refine List.Pairwise.map _ ?_ (List.pairwise_lt_range _)
    intro a b hab
    have hn : (0 : ℚ) < ((u :: rest).length : ℚ) := by
      rw [List.length_cons]
      push_cast
      positivity
    rw [div_lt_div_iff_of_pos_right hn]
    have : (a : ℚ) < (b : ℚ) := by exact_mod_cast hab
    linarith

/-- Claim C8: the title of a scraped record is the text of the first title
element of the (script/style-stripped) document, or the fixed string
`"No Title"` when there is none. -/
theorem C8_title_or_fallback (url : String) (doc : List Html) :
    Option.map PageRecord.title
        (scrape_url url (fun _ => FetchOutcome.response 200 doc))
      = some (match findTitleList (decomposeList doc) with
              | some el => elemText el
              | none => "No Title".toList) := by
  have h200 : ¬(400 ≤ 200 ∧ 200 < 600) := by norm_num
  unfold scrape_url
  dsimp only
  rw [if_neg h200]
  unfold extractRecord
  cases hft : findTitleList (decomposeList doc) with
  | none => simp [hft]
  | some el => simp [hft]

/-- Claim C9: the URL list is fixed, has exactly 14 entries, all under the
`www.argyleisd.com` domain, and every request is issued with the
browser-like `User-Agent` header and the 10-second timeout. -/
theorem C9_urls_and_request_config :
    get_argyle_urls.length = 14
    ∧ get_argyle_urls.all
        (fun u => "https://www.argyleisd.com".toList.isPrefixOf u.toList) = true
    ∧ request_timeout = 10
    ∧ request_headers
        = [("User-Agent",
            "Mozilla/5.0 (Windows NT 10.0; Win64; x64) AppleWebKit/537.36")]
    ∧ "Mozilla/5.0".toList.isPrefixOf
        "Mozilla/5.0 (Windows NT 10.0; Win64; x64) AppleWebKit/537.36".toList
        = true := by
  refine ⟨rfl, by decide, rfl, rfl, by decide⟩

/-- Claim C10, as stated, is false in one detail: `raise_for_status` only
raises for status codes in 400-599, so a non-2xx status outside that range
(here 304) produces a record, not `None`. -/
theorem C10_non2xx_counterexample :
    scrape_url "u" (fun _ => FetchOutcome.response 304 [Html.text "cached".toList])
      = some ⟨"u", "No Title".toList, "cached".toList⟩ := by
  simp [scrape_url, extractRecord, decomposeList, findTitleList,
    getTextList, elemText] ; decide

/-- Claim C10, amended: `scrape_url` is total — it returns a record or
`None` — and every failure (network-level exception, or an HTTP status in
400-599) is mapped to `None` inside the function. -/
theorem C10_total_failures_to_none (url : String)
    (http : HttpRequest → FetchOutcome) :
    ((∃ r, scrape_url url http = some r) ∨ scrape_url url http = none)
    ∧ (http ⟨url, request_headers, request_timeout⟩ = FetchOutcome.netError →
        scrape_url url http = none)
    ∧ (∀ (status : Nat) (doc : List Html),
        http ⟨url, request_headers, request_timeout⟩
          = FetchOutcome.response status doc →
        400 ≤ status → status < 600 → scrape_url url http = none) := by
  refine ⟨?_, ?_, ?_⟩
  · cases h : scrape_url url http with
    | none => exact Or.inr rfl
    | some r => exact Or.inl ⟨r, rfl⟩
  · intro h
    unfold scrape_url
    rw [h]
  · intro status doc h h₁ h₂
    unfold scrape_url
    rw [h]
    dsimp only
    rw [if_pos ⟨h₁, h₂⟩]

/-- Witness for the amended C10: a network error maps to `None`. -/
theorem C10_total_failures_to_none_witness :
    ((fun _ : HttpRequest => FetchOutcome.netError)
        ⟨"u", request_headers, request_timeout⟩ = FetchOutcome.netError)
    ∧ scrape_url "u" (fun _ => FetchOutcome.netError) = none :=
  ⟨rfl,
   (C10_total_failures_to_none "u" (fun _ => FetchOutcome.netError)).2.1 rfl⟩

end Argyle
